import Mathlib

/-!
Verification of the Easun-Local-Wifi inverter protocol layer.

Shallow embedding of the repository's Python sources:
  * `easunpy/modbusclient.py`   — frame codec (`create_request`, `decode_modbus_response`)
  * `easunpy/models.py`         — register maps and model configurations
  * `easunpy/async_isolar.py`   — register-group coalescing, ASCII response parsing,
                                  snapshot sub-record assembly, model selection
  * `easunpy/async_piclient.py` — bulk ASCII pipeline (`send_bulk`)
  * `easunpy/async_asciiclient.py` — ASCII packet builder (`_build_command_packet`)
  * `easunpy/async_ascii_commands.py` — `parse_qpgis`

Bytes are modelled as `List Nat` (a Python `bytes` value holds integers in
0..255; totality of the embedding is noted where Python would raise).
Python `float`/`int` field values are modelled as `ℚ`/`ℤ` wrapped in `Val`.
The CRC module `easunpy/crc.py` (and its copy `crc_xmodem.py`) is not among
the repository's source files, so its three functions are modelled from the
spec, §4.1; every claim settled below is insensitive to the exact CRC values.
-/

namespace Easun

/-! ## CRC engine -/

/-- Modelled from the spec: `easunpy/crc.py` is absent from the sources.
§4.1: `crc16Modbus(bytes) -> uint16`, the standard Modbus CRC-16
(reflected polynomial `0xA001`, initial value `0xFFFF`).
One shift step: shift right, xor with the polynomial when the low bit was set. -/
def crcModbusShift (crc : Nat) : Nat :=
  if crc % 2 = 1 then Nat.xor (crc / 2) 0xA001 else crc / 2

/-- Modelled from the spec (§4.1): fold one input byte into the Modbus CRC. -/
def crcModbusByte (crc b : Nat) : Nat :=
  crcModbusShift^[8] (Nat.xor crc b)

/-- Modelled from the spec (§4.1): `crc16_modbus` over a byte list. -/
def crc16_modbus (data : List Nat) : Nat :=
  data.foldl crcModbusByte 0xFFFF

/-- Modelled from the spec: `easunpy/crc.py` is absent from the sources.
§4.1: `crc16Xmodem(bytes) -> uint16`, the CCITT/XMODEM CRC-16
(polynomial `0x1021`, initial value `0`). One shift step, keeping 16 bits. -/
def crcXmodemShift (crc : Nat) : Nat :=
  if 0x8000 ≤ crc then Nat.xor (crc * 2) 0x1021 % 0x10000 else crc * 2 % 0x10000

/-- Modelled from the spec (§4.1): fold one input byte into the XMODEM CRC. -/
def crcXmodemByte (crc b : Nat) : Nat :=
  crcXmodemShift^[8] (Nat.xor crc (b * 256))

/-- Modelled from the spec (§4.1): `crc16_xmodem` over a byte list. -/
def crc16_xmodem (data : List Nat) : Nat :=
  data.foldl crcXmodemByte 0

/-- Modelled from the spec (§4.1): `adjustCrcByte(b) -> byte`: if `b` equals a
reserved control value (`'('` = 0x28, CR = 0x0D, LF = 0x0A), return `b + 1`. -/
def adjust_crc_byte (b : Nat) : Nat :=
  if b = 0x28 ∨ b = 0x0D ∨ b = 0x0A then b + 1 else b

/-! ## Frame codec (`easunpy/modbusclient.py`) -/

/-- The bytes of a Python string encoded as ASCII (`str.encode('ascii')`);
code points ≥ 128 would raise `UnicodeEncodeError` in Python, the theorems
below only use this under an all-ASCII hypothesis. -/
def strBytes (s : String) : List Nat := s.data.map Char.toNat

/-- `create_request` (modbusclient.py lines 104-143). The Python function
returns `command.hex()`; decoding starts with `bytes.fromhex`, an exact
inverse, so the hex codec is elided and the frame is kept as its bytes.
ASCII branch: command bytes + escaped XMODEM CRC (high, low) + CR.
Binary branch: `[unit_id, function_code, addrHi, addrLo, countHi, countLo]`
+ Modbus CRC (low, high). Both prefixed with `0xFF 0x04` and the 6-byte
envelope (transaction id, protocol id, remainder length, big-endian). -/
def create_request (transaction_id protocol_id : Nat) (ascii_command : Option String)
    (unit_id function_code register_address register_count : Nat) : List Nat :=
  let rtu_packet : List Nat :=
    match ascii_command with
    | some cmd =>
        let body := strBytes cmd
        let crc := crc16_xmodem body
        let crc_high := adjust_crc_byte (crc / 256 % 256)
        let crc_low := adjust_crc_byte (crc % 256)
        body ++ [crc_high, crc_low, 0x0D]
    | none =>
        let base := [unit_id, function_code,
          register_address / 256 % 256, register_address % 256,
          register_count / 256 % 256, register_count % 256]
        let crc := crc16_modbus base
        base ++ [crc % 256, crc / 256 % 256]
  let prefixed := [0xFF, 0x04] ++ rtu_packet
  let length := prefixed.length
  [transaction_id / 256 % 256, transaction_id % 256,
   protocol_id / 256 % 256, protocol_id % 256,
   length / 256 % 256, length % 256] ++ prefixed

/-- Result of `decode_modbus_response`: a list of register values in binary
mode, an optional text in ASCII mode (`None` for a short frame), or an
uncaught Python exception (only `UnicodeDecodeError` is reachable). -/
inductive DecodeResult
  | vals (values : List Int)
  | text (s : Option String)
  | err (msg : String)
  deriving DecidableEq, Repr

/-- The declared message length of a frame: bytes 4..5, big-endian
(`int.from_bytes(response[4:6], 'big')`). -/
def msg_len_of (response : List Nat) : Nat :=
  256 * response.getD 4 0 + response.getD 5 0

/-- The inner payload of a frame: `response[6 : 6 + msg_len]`. -/
def payload_of (response : List Nat) : List Nat :=
  (response.drop 6).take (msg_len_of response)

/-- The early-exit value of `decode_modbus_response`:
`[]` in binary mode, `None` in ASCII mode. -/
def emptyResult (is_ascii : Bool) : DecodeResult :=
  if is_ascii then .text none else .vals []

/-- One decoded register word (modbusclient.py lines 187-191): big-endian
16-bit value, reinterpreted as two's-complement when `data_format == "Int"`
and the high bit (`val & 0x8000`) is set. -/
def toSigned (data_format : String) (val : Nat) : Int :=
  if data_format = "Int" ∧ Nat.land val 0x8000 ≠ 0 then (val : Int) - 0x10000
  else (val : Int)

/-- The register-word loop of `decode_modbus_response` (lines 182-191):
up to `register_count` big-endian words; the loop `break`s as soon as
fewer than two bytes remain. -/
def decode_words (data_format : String) : Nat → List Nat → List Int
  | 0, _ => []
  | n + 1, b1 :: b2 :: rest =>
      toSigned data_format (256 * b1 + b2) :: decode_words data_format n rest
  | _ + 1, _ => []

/-- `bytes.decode('ascii')`: a string when every byte is < 128, otherwise
an uncaught `UnicodeDecodeError`. -/
def asciiDecode (bytes : List Nat) : DecodeResult :=
  if bytes.all (· < 128) then .text (some ⟨bytes.map Char.ofNat⟩)
  else .err "UnicodeDecodeError"

/-- `decode_modbus_response` (modbusclient.py lines 145-192) on the frame's
bytes. Guards in source order: total length ≥ 9, declared length available,
inner payload ≥ 3 bytes. ASCII mode strips the 2-byte unit/function header,
then the trailing CRC (2 bytes) + CR; binary mode skips the unit, function
and byte-count bytes and parses big-endian words. -/
def decode_modbus_response (response : List Nat) (register_count : Nat)
    (data_format : String) (is_ascii : Bool) : DecodeResult :=
  if response.length < 9 then emptyResult is_ascii
  else if response.length < 6 + msg_len_of response then emptyResult is_ascii
  else if (payload_of response).length < 3 then emptyResult is_ascii
  else if is_ascii then
    if ((payload_of response).drop 2).length < 3 then .text none
    else
      asciiDecode (((payload_of response).drop 2).take
        (((payload_of response).drop 2).length - 3))
  else
    .vals (decode_words data_format register_count ((payload_of response).drop 3))

/-- A minimal well-formed binary response frame carrying one register word
`256 * b1 + b2`: envelope declares 5 payload bytes — unit `0x01`,
function `0x03`, byte count `0x02`, then the word. -/
def word_frame (b1 b2 : Nat) : List Nat :=
  [0, 0, 0, 0, 0, 5, 1, 3, 2, b1, b2]

/-! ## C6 and C7 -/

/-- C6: for every frame shorter than 9 bytes, or whose declared length
exceeds the bytes present, or whose inner payload is shorter than the
2-byte unit/function header plus one byte, `decode_modbus_response`
returns the empty result — `[]` in binary mode and no text in ASCII mode —
and raises nothing (no `.err` value). -/
theorem c6_short_frame_empty (response : List Nat) (register_count : Nat)
    (data_format : String)
    (h : response.length < 9 ∨ response.length < 6 + msg_len_of response ∨
      (payload_of response).length < 3) :
    decode_modbus_response response register_count data_format false = .vals [] ∧
    decode_modbus_response response register_count data_format true = .text none := by
  unfold decode_modbus_response
  rcases h with h | h | h <;>
    constructor <;>
    simp only [emptyResult, Bool.false_eq_true, if_false, if_true] <;>
    split_ifs <;> first | rfl | (exfalso; omega)

/-- Witness for C6 at concrete short inputs: the empty frame (shorter than
9 bytes), an 11-byte frame whose declared length 200 exceeds the bytes
present, and a 9-byte frame whose declared length 2 leaves an inner payload
of fewer than 3 bytes. -/
theorem c6_short_frame_empty_witness :
    (decode_modbus_response [] 1 "Int" false = .vals [] ∧
      decode_modbus_response [] 1 "Int" true = .text none) ∧
    (decode_modbus_response [0, 0, 0, 0, 0, 200, 1, 3, 2, 0, 0] 1 "Int" false = .vals [] ∧
      decode_modbus_response [0, 0, 0, 0, 0, 200, 1, 3, 2, 0, 0] 1 "Int" true = .text none) ∧
    (decode_modbus_response [0, 0, 0, 0, 0, 2, 1, 3, 9] 1 "Int" false = .vals [] ∧
      decode_modbus_response [0, 0, 0, 0, 0, 2, 1, 3, 9] 1 "Int" true = .text none) :=
  ⟨c6_short_frame_empty [] 1 "Int" (Or.inl (by decide)),
   c6_short_frame_empty [0, 0, 0, 0, 0, 200, 1, 3, 2, 0, 0] 1 "Int" (Or.inr (Or.inl (by decide))),
   c6_short_frame_empty [0, 0, 0, 0, 0, 2, 1, 3, 9] 1 "Int" (Or.inr (Or.inr (by decide)))⟩

/-- The bit test `val & 0x8000` of the decoder, characterised arithmetically
for a big-endian word assembled from two bytes. -/
theorem land_high_bit (b1 b2 : Nat) (h1 : b1 < 256) (h2 : b2 < 256) :
    Nat.land (256 * b1 + b2) 0x8000 = if 128 ≤ b1 then 0x8000 else 0 := by
  have hw : (256 * b1 + b2) &&& 2 ^ 15 = ((256 * b1 + b2).testBit 15).toNat * 2 ^ 15 :=
    Nat.and_two_pow _ 15
  have ht : (256 * b1 + b2).testBit 15 = decide ((256 * b1 + b2) / 2 ^ 15 % 2 = 1) :=
    Nat.testBit_to_div_mod
  have hland : Nat.land (256 * b1 + b2) 0x8000 = (256 * b1 + b2) &&& 2 ^ 15 := rfl
  rw [hland, hw, ht]
  have hdiv : (256 * b1 + b2) / 2 ^ 15 % 2 = if 128 ≤ b1 then 1 else 0 := by
    split_ifs with h <;> omega
  rw [hdiv]
  split_ifs with h <;> simp

/-- C7: in binary mode with signed format requested (`data_format = "Int"`),
`decode_modbus_response` reinterprets each big-endian word as
two's-complement: a word `w = 256*b1 + b2` with the high bit set decodes to
`w - 0x10000`, any other word to `w` itself. -/
theorem c7_sign_extension (b1 b2 : Nat) (h1 : b1 < 256) (h2 : b2 < 256) :
    decode_modbus_response (word_frame b1 b2) 1 "Int" false =
      .vals [if 128 ≤ b1 then (256 * b1 + b2 : Int) - 0x10000 else (256 * b1 + b2 : Int)] := by
  have hfull : decode_modbus_response (word_frame b1 b2) 1 "Int" false =
      .vals [toSigned "Int" (256 * b1 + b2)] := by
    rfl
  rw [hfull]
  unfold toSigned
  rw [land_high_bit b1 b2 h1 h2]
  split_ifs with h h' h' <;> simp_all

/-- Witness for C7 at the spec's reference words: raw word `0x8000`
decodes to `-32768`, `0x7FFF` to `32767`, `0x0001` to `1`. -/
theorem c7_sign_extension_witness :
    decode_modbus_response (word_frame 0x80 0x00) 1 "Int" false = .vals [-32768] ∧
    decode_modbus_response (word_frame 0x7F 0xFF) 1 "Int" false = .vals [32767] ∧
    decode_modbus_response (word_frame 0x00 0x01) 1 "Int" false = .vals [1] := by
  refine ⟨?_, ?_, ?_⟩
  · simpa using c7_sign_extension 0x80 0x00 (by decide) (by decide)
  · simpa using c7_sign_extension 0x7F 0xFF (by decide) (by decide)
  · simpa using c7_sign_extension 0x00 0x01 (by decide) (by decide)

/-! ## Register maps (`easunpy/models.py`) -/

/-- The only custom processor appearing in `models.py` is Python's `int`
builtin attached to the time registers (the identity on register words). -/
inductive Processor
  | intCast
  deriving DecidableEq, Repr

/-- `RegisterConfig` (models.py lines 54-59): address, scale factor,
optional processor. A Python `int` address is modelled as `ℤ`
(`address > 0` is the "supported" convention), the float scale factor as
the exact rational the literal denotes. -/
structure RegisterConfig where
  address : Int
  scale_factor : ℚ
  processor : Option Processor
  deriving DecidableEq, Repr

/-- A register entry with the default scale factor 1.0 and no processor. -/
def reg (address : Int) : RegisterConfig := ⟨address, 1, none⟩

/-- A register entry with an explicit scale factor. -/
def regS (address : Int) (scale : ℚ) : RegisterConfig := ⟨address, scale, none⟩

/-- A register entry with the `int` processor (the time registers). -/
def regP (address : Int) : RegisterConfig := ⟨address, 1, some .intCast⟩

/-- `ModelConfig` (models.py lines 61-65): a Python dict is a key-ordered
association list with distinct keys. -/
structure ModelConfig where
  name : String
  register_map : List (String × RegisterConfig)
  deriving DecidableEq, Repr

/-- `ISOLAR_SMG_II_11K` (models.py lines 91-129). -/
def ISOLAR_SMG_II_11K : ModelConfig :=
  { name := "ISOLAR_SMG_II_11K"
    register_map :=
      [("operation_mode", reg 201),
       ("battery_voltage", regS 277 0.1),
       ("battery_current", regS 278 0.1),
       ("battery_power", reg 279),
       ("battery_soc", reg 280),
       ("battery_temperature", reg 281),
       ("pv_total_power", reg 302),
       ("pv_charging_power", reg 303),
       ("pv_charging_current", regS 304 0.1),
       ("pv_temperature", reg 305),
       ("pv1_voltage", regS 351 0.1),
       ("pv1_current", regS 352 0.1),
       ("pv1_power", reg 353),
       ("pv2_voltage", regS 389 0.1),
       ("pv2_current", regS 390 0.1),
       ("pv2_power", reg 391),
       ("grid_voltage", regS 338 0.1),
       ("grid_current", regS 339 0.1),
       ("grid_power", reg 340),
       ("grid_frequency", reg 607),
       ("output_voltage", regS 346 0.1),
       ("output_current", regS 347 0.1),
       ("output_power", reg 348),
       ("output_apparent_power", reg 349),
       ("output_load_percentage", reg 350),
       ("output_frequency", reg 607),
       ("time_register_0", regP 696),
       ("time_register_1", regP 697),
       ("time_register_2", regP 698),
       ("time_register_3", regP 699),
       ("time_register_4", regP 700),
       ("time_register_5", regP 701),
       ("pv_energy_today", regS 702 0.01),
       ("pv_energy_total", regS 703 0.01)] }

/-- `ISOLAR_SMG_II_6K` (models.py lines 131-169). -/
def ISOLAR_SMG_II_6K : ModelConfig :=
  { name := "ISOLAR_SMG_II_6K"
    register_map :=
      [("operation_mode", reg 201),
       ("battery_voltage", regS 215 0.1),
       ("battery_current", regS 216 0.1),
       ("battery_power", reg 217),
       ("battery_soc", reg 229),
       ("battery_temperature", reg 226),
       ("pv_total_power", reg 223),
       ("pv_charging_power", reg 224),
       ("pv_charging_current", regS 234 0.1),
       ("pv_temperature", reg 227),
       ("pv1_voltage", regS 219 0.1),
       ("pv1_current", regS 220 0.1),
       ("pv1_power", reg 223),
       ("pv2_voltage", reg 0),
       ("pv2_current", reg 0),
       ("pv2_power", reg 0),
       ("grid_voltage", regS 202 0.1),
       ("grid_current", reg 0),
       ("grid_power", reg 204),
       ("grid_frequency", reg 203),
       ("output_voltage", regS 210 0.1),
       ("output_current", regS 211 0.1),
       ("output_power", reg 213),
       ("output_apparent_power", reg 214),
       ("output_load_percentage", regS 225 0.01),
       ("output_frequency", reg 212),
       ("time_register_0", regP 696),
       ("time_register_1", regP 697),
       ("time_register_2", regP 698),
       ("time_register_3", regP 699),
       ("time_register_4", regP 700),
       ("time_register_5", regP 701),
       ("pv_energy_today", reg 0),
       ("pv_energy_total", reg 0)] }

/-- `EASUN_SMW_8K` (models.py lines 173-230). -/
def EASUN_SMW_8K : ModelConfig :=
  { name := "EASUN_SMW_8K"
    register_map :=
      [("operation_mode", reg 201),
       ("battery_voltage", regS 280 0.1),
       ("battery_current", regS 281 0.1),
       ("battery_power", reg 282),
       ("battery_soc", reg 283),
       ("battery_temperature", reg 284),
       ("pv_total_power", reg 302),
       ("pv_charging_power", reg 303),
       ("pv_charging_current", regS 304 0.1),
       ("pv_temperature", reg 305),
       ("pv1_voltage", regS 351 0.1),
       ("pv1_current", regS 352 0.1),
       ("pv1_power", reg 353),
       ("pv2_voltage", regS 389 0.1),
       ("pv2_current", regS 390 0.1),
       ("pv2_power", reg 391),
       ("grid_voltage", regS 338 0.1),
       ("grid_current", regS 339 0.1),
       ("grid_power", reg 340),
       ("grid_frequency", regS 341 0.01),
       ("output_voltage", regS 346 0.1),
       ("output_current", regS 347 0.1),
       ("output_power", reg 348),
       ("output_apparent_power", reg 349),
       ("output_load_percentage", reg 350),
       ("output_frequency", regS 351 0.01),
       ("time_register_0", regP 696),
       ("time_register_1", regP 697),
       ("time_register_2", regP 698),
       ("time_register_3", regP 699),
       ("time_register_4", regP 700),
       ("time_register_5", regP 701),
       ("pv_energy_today", regS 702 0.01),
       ("pv_energy_total", regS 703 0.01)] }

/-- `EASUN_SMW_11K` (models.py lines 233-236): same register map as the
8 kW model (`register_map.copy()`). -/
def EASUN_SMW_11K : ModelConfig :=
  { name := "EASUN_SMW_11K", register_map := EASUN_SMW_8K.register_map }

/-- `MODEL_CONFIGS` (models.py lines 239-244). -/
def MODEL_CONFIGS : List (String × ModelConfig) :=
  [("ISOLAR_SMG_II_11K", ISOLAR_SMG_II_11K),
   ("ISOLAR_SMG_II_6K", ISOLAR_SMG_II_6K),
   ("EASUN_SMW_8K", EASUN_SMW_8K),
   ("EASUN_SMW_11K", EASUN_SMW_11K)]

/-- Python dict lookup `d.get(k)` over the association-list model. -/
def dictGet {α : Type} (d : List (String × α)) (k : String) : Option α :=
  (d.find? fun p => p.1 == k).map Prod.snd

/-! ## Register-group coalescing (`async_isolar.py` lines 217-248) -/

/-- The greedy loop of `_create_register_groups` over the remaining sorted
addresses, carrying `current_start`/`current_end`: extend the group while
the next address is at most `current_end + 10`, otherwise close it
(emitting `(start, end - start + 1)`) and begin a new group. -/
def groupsAux (current_start current_end : Int) : List Int → List (Int × Int)
  | [] => [(current_start, current_end - current_start + 1)]
  | addr :: rest =>
      if addr ≤ current_end + 10 then groupsAux current_start addr rest
      else (current_start, current_end - current_start + 1) :: groupsAux addr addr rest

/-- The greedy pass over an already-sorted address list: empty input gives
no groups, otherwise start a group at the first address. -/
def greedy_groups : List Int → List (Int × Int)
  | [] => []
  | a :: rest => groupsAux a a rest

/-- `_create_register_groups`: collect the addresses of the model's register
map with `address > 0`, sort them ascending (`addresses.sort()`), then run
the greedy pass. The source keeps duplicate addresses in the list. -/
def create_register_groups (register_map : List (String × RegisterConfig)) :
    List (Int × Int) :=
  let addresses := (register_map.map fun p => p.2.address).filter fun a => 0 < a
  greedy_groups (addresses.insertionSort (· ≤ ·))

/-- Removing consecutive duplicates; on a sorted list this yields the
distinct values in ascending order. -/
def dedupSorted : List Int → List Int
  | [] => []
  | [a] => [a]
  | a :: b :: rest =>
      if a = b then dedupSorted (b :: rest) else a :: dedupSorted (b :: rest)

/-- The claim's algorithm, following the spec's words ("take distinct
addresses with address > 0, sort ascending; greedily extend…"): identical
to `create_register_groups` except that duplicate addresses are removed. -/
def spec_register_groups (register_map : List (String × RegisterConfig)) :
    List (Int × Int) :=
  let addresses := (register_map.map fun p => p.2.address).filter fun a => 0 < a
  greedy_groups (dedupSorted (addresses.insertionSort (· ≤ ·)))

theorem groupsAux_cons_self (a : Int) (rest : List Int) (cs ce : Int) :
    groupsAux cs ce (a :: a :: rest) = groupsAux cs ce (a :: rest) := by
  simp only [groupsAux]
  split_ifs with h1 h2 h2 <;> first | rfl | omega

theorem groupsAux_dedupSorted (l : List Int) :
    ∀ cs ce, groupsAux cs ce (dedupSorted l) = groupsAux cs ce l := by
  induction l with
  | nil => intro cs ce; rfl
  | cons a rest ih =>
      cases rest with
      | nil => intro cs ce; rfl
      | cons b rest' =>
          intro cs ce
          by_cases hab : a = b
          · subst hab
            rw [show dedupSorted (a :: a :: rest') = dedupSorted (a :: rest') by
              simp [dedupSorted]]
            rw [ih cs ce, groupsAux_cons_self]
          · rw [show dedupSorted (a :: b :: rest') = a :: dedupSorted (b :: rest') by
              simp [dedupSorted, hab]]
            conv_lhs => rw [groupsAux]
            conv_rhs => rw [groupsAux]
            split_ifs with h
            · exact ih cs a
            · rw [ih a a]

theorem greedy_groups_dedupSorted (l : List Int) :
    greedy_groups (dedupSorted l) = greedy_groups l := by
  induction l with
  | nil => rfl
  | cons a rest ih =>
      cases rest with
      | nil => rfl
      | cons b rest' =>
          by_cases hab : a = b
          · subst hab
            rw [show dedupSorted (a :: a :: rest') = dedupSorted (a :: rest') by
              simp [dedupSorted]]
            rw [ih]
            show greedy_groups (a :: rest') = greedy_groups (a :: a :: rest')
            simp only [greedy_groups]
            conv_rhs => rw [groupsAux]
            rw [if_pos (show a ≤ a + 10 by omega)]
          · rw [show dedupSorted (a :: b :: rest') = a :: dedupSorted (b :: rest') by
              simp [dedupSorted, hab]]
            show groupsAux a a (dedupSorted (b :: rest')) = groupsAux a a (b :: rest')
            exact groupsAux_dedupSorted (b :: rest') a a

/-- A register map whose positive addresses are exactly the spec's example
set `{201, 215, 277, 278, 279, 280, 281, 302}`. -/
def example_register_map : List (String × RegisterConfig) :=
  [("operation_mode", reg 201),
   ("battery_voltage", reg 215),
   ("a", reg 277), ("b", reg 278), ("c", reg 279), ("d", reg 280), ("e", reg 281),
   ("pv_total_power", reg 302)]

/-- C3: `_create_register_groups` computes exactly the spans of the claimed
algorithm — distinct addresses > 0, sorted ascending, greedily extended
while the next address is at most the current end + 10 — and on the example
address set `{201, 215, 277, 278, 279, 280, 281, 302}` it returns exactly
`[(201,1), (215,1), (277,5), (302,1)]`. -/
theorem c3_register_groups_algorithm :
    (∀ register_map, create_register_groups register_map = spec_register_groups register_map) ∧
    create_register_groups example_register_map = [(201, 1), (215, 1), (277, 5), (302, 1)] := by
  constructor
  · intro register_map
    unfold create_register_groups spec_register_groups
    rw [greedy_groups_dedupSorted]
  · decide

/-! ## Greedy-coalescing invariants (C10) -/

/-- Membership of an address in a `(start, count)` span, exactly the
attribution test of `get_all_data` (async_isolar.py line 201):
`start ≤ address < start + count`. -/
def in_span (a : Int) (g : Int × Int) : Prop := g.1 ≤ a ∧ a < g.1 + g.2

instance (a : Int) (g : Int × Int) : Decidable (in_span a g) := by
  unfold in_span; infer_instance

/-- Every group the greedy loop emits starts at or after `current_start`. -/
theorem groupsAux_start_ge (l : List Int) :
    ∀ cs ce, cs ≤ ce → (∀ b ∈ l, ce ≤ b) → l.Pairwise (· ≤ ·) →
      ∀ g ∈ groupsAux cs ce l, cs ≤ g.1 := by
  induction l with
  | nil =>
      intro cs ce hcs _ _ g hg
      simp only [groupsAux, List.mem_singleton] at hg
      subst hg; exact le_refl cs
  | cons a rest ih =>
      intro cs ce hcs hce hsorted g hg
      have hcea : ce ≤ a := hce a (List.mem_cons_self a rest)
      rw [List.pairwise_cons] at hsorted
      simp only [groupsAux] at hg
      split_ifs at hg with h
      · exact ih cs a (le_trans hcs hcea) hsorted.1 hsorted.2 g hg
      · rcases List.mem_cons.mp hg with hg | hg
        · subst hg; exact le_refl cs
        · have := ih a a (le_refl a) hsorted.1 hsorted.2 g hg
          omega

/-- Every group the greedy loop emits has count at least 1. -/
theorem groupsAux_count_pos (l : List Int) :
    ∀ cs ce, cs ≤ ce → (∀ b ∈ l, ce ≤ b) → l.Pairwise (· ≤ ·) →
      ∀ g ∈ groupsAux cs ce l, 1 ≤ g.2 := by
  induction l with
  | nil =>
      intro cs ce hcs _ _ g hg
      simp only [groupsAux, List.mem_singleton] at hg
      subst hg; simp; omega
  | cons a rest ih =>
      intro cs ce hcs hce hsorted g hg
      have hcea : ce ≤ a := hce a (List.mem_cons_self a rest)
      rw [List.pairwise_cons] at hsorted
      simp only [groupsAux] at hg
      split_ifs at hg with h
      · exact ih cs a (le_trans hcs hcea) hsorted.1 hsorted.2 g hg
      · rcases List.mem_cons.mp hg with hg | hg
        · subst hg; simp; omega
        · exact ih a a (le_refl a) hsorted.1 hsorted.2 g hg

/-- Consecutive (and by transitivity all later) groups are separated:
a later group starts more than 10 past the earlier group's last address. -/
theorem groupsAux_pairwise_gap (l : List Int) :
    ∀ cs ce, cs ≤ ce → (∀ b ∈ l, ce ≤ b) → l.Pairwise (· ≤ ·) →
      (groupsAux cs ce l).Pairwise (fun g h => g.1 + g.2 + 9 < h.1) := by
  induction l with
  | nil =>
      intro cs ce _ _ _
      simp [groupsAux]
  | cons a rest ih =>
      intro cs ce hcs hce hsorted
      have hcea : ce ≤ a := hce a (List.mem_cons_self a rest)
      rw [List.pairwise_cons] at hsorted
      simp only [groupsAux]
      split_ifs with h
      · exact ih cs a (le_trans hcs hcea) hsorted.1 hsorted.2
      · rw [List.pairwise_cons]
        constructor
        · intro g hg
          have := groupsAux_start_ge rest a a (le_refl a) hsorted.1 hsorted.2 g hg
          simp only
          omega
        · exact ih a a (le_refl a) hsorted.1 hsorted.2

/-- Every address of the input list — and every address between
`current_start` and `current_end` — lies inside some emitted span. -/
theorem groupsAux_covers (l : List Int) :
    ∀ cs ce, cs ≤ ce → (∀ b ∈ l, ce ≤ b) → l.Pairwise (· ≤ ·) →
      ∀ x, (x ∈ l ∨ (cs ≤ x ∧ x ≤ ce)) → ∃ g ∈ groupsAux cs ce l, in_span x g := by
  induction l with
  | nil =>
      intro cs ce _ _ _ x hx
      rcases hx with hx | hx
      · exact absurd hx (List.not_mem_nil x)
      · exact ⟨(cs, ce - cs + 1), List.mem_singleton.mpr rfl, hx.1, by simp; omega⟩
  | cons a rest ih =>
      intro cs ce hcs hce hsorted x hx
      have hcea : ce ≤ a := hce a (List.mem_cons_self a rest)
      rw [List.pairwise_cons] at hsorted
      simp only [groupsAux]
      split_ifs with h
      · apply ih cs a (le_trans hcs hcea) hsorted.1 hsorted.2 x
        rcases hx with hx | hx
        · rcases List.mem_cons.mp hx with hx | hx
          · subst hx; exact Or.inr ⟨le_trans hcs hcea, le_refl x⟩
          · exact Or.inl hx
        · exact Or.inr ⟨hx.1, le_trans hx.2 hcea⟩
      · rcases hx with hx | hx
        · rcases List.mem_cons.mp hx with hx | hx
          · subst hx
            obtain ⟨g, hg, hspan⟩ :=
              ih x x (le_refl x) hsorted.1 hsorted.2 x (Or.inr ⟨le_refl x, le_refl x⟩)
            exact ⟨g, List.mem_cons_of_mem _ hg, hspan⟩
          · obtain ⟨g, hg, hspan⟩ :=
              ih a a (le_refl a) hsorted.1 hsorted.2 x (Or.inl hx)
            exact ⟨g, List.mem_cons_of_mem _ hg, hspan⟩
        · refine ⟨(cs, ce - cs + 1), List.mem_cons_self _ _, hx.1, ?_⟩
          simp only
          omega

/-- Two separated spans are disjoint. -/
theorem gap_disjoint (g h : Int × Int) (hgap : g.1 + g.2 + 9 < h.1) (x : Int) :
    ¬(in_span x g ∧ in_span x h) := by
  rintro ⟨⟨_, h2⟩, ⟨h3, _⟩⟩
  omega

/-- The greedy pass on any sorted list: separated spans, positive counts,
and every input address covered. -/
theorem greedy_groups_invariants (l : List Int) (hs : l.Sorted (· ≤ ·)) :
    (greedy_groups l).Pairwise (fun g h => g.1 + g.2 + 9 < h.1) ∧
    (∀ g ∈ greedy_groups l, 1 ≤ g.2) ∧
    (∀ x ∈ l, ∃ g ∈ greedy_groups l, in_span x g) := by
  cases l with
  | nil => simp [greedy_groups]
  | cons a rest =>
      rw [List.sorted_cons] at hs
      have hpair : rest.Pairwise (· ≤ ·) := hs.2
      refine ⟨groupsAux_pairwise_gap rest a a (le_refl a) hs.1 hpair, ?_, ?_⟩
      · exact groupsAux_count_pos rest a a (le_refl a) hs.1 hpair
      · intro x hx
        apply groupsAux_covers rest a a (le_refl a) hs.1 hpair x
        rcases List.mem_cons.mp hx with hx | hx
        · subst hx; exact Or.inr ⟨le_refl x, le_refl x⟩
        · exact Or.inl hx

/-- C10: for every register map, the spans of `_create_register_groups` are
in strictly ascending start order, consecutive spans are separated by a gap
greater than 10 (so the spans are pairwise disjoint), every span is
non-empty, and every register address > 0 of the map lies within exactly
one span — hence the attribution test of `get_all_data`
(`start ≤ address < start + count`) matches exactly one bulk-read group. -/
theorem c10_register_groups_invariants (register_map : List (String × RegisterConfig)) :
    (create_register_groups register_map).Chain' (fun g h => g.1 + g.2 + 9 < h.1) ∧
    (∀ g ∈ create_register_groups register_map, 1 ≤ g.2) ∧
    (∀ entry ∈ register_map, 0 < entry.2.address →
      ∃ g ∈ create_register_groups register_map, in_span entry.2.address g ∧
        ∀ g' ∈ create_register_groups register_map, in_span entry.2.address g' → g' = g) := by
  have hl : create_register_groups register_map =
      greedy_groups (((register_map.map fun p => p.2.address).filter
        fun a => 0 < a).insertionSort (· ≤ ·)) := rfl
  obtain ⟨hpw, hcnt, hcov⟩ :=
    greedy_groups_invariants
      (((register_map.map fun p => p.2.address).filter fun a => 0 < a).insertionSort (· ≤ ·))
      (List.sorted_insertionSort _ _)
  have hdisj : (greedy_groups (((register_map.map fun p => p.2.address).filter
      fun a => 0 < a).insertionSort (· ≤ ·))).Pairwise
      (fun g h => ∀ x, ¬(in_span x g ∧ in_span x h)) :=
    hpw.imp fun hgap x => gap_disjoint _ _ hgap x
  have hsymm : Symmetric (fun g h : Int × Int => ∀ x, ¬(in_span x g ∧ in_span x h)) :=
    fun g h hs x hx => hs x ⟨hx.2, hx.1⟩
  refine ⟨?_, ?_, ?_⟩
  · rw [hl]; exact hpw.chain'
  · rw [hl]; exact hcnt
  · intro entry hmem hpos
    have haddr : entry.2.address ∈
        (register_map.map fun p => p.2.address).filter fun a => 0 < a := by
      rw [List.mem_filter]
      exact ⟨List.mem_map_of_mem _ hmem, by simpa using hpos⟩
    have hsortmem : entry.2.address ∈
        ((register_map.map fun p => p.2.address).filter fun a => 0 < a).insertionSort (· ≤ ·) :=
      (List.perm_insertionSort _ _).mem_iff.mpr haddr
    obtain ⟨g, hg, hspan⟩ := hcov entry.2.address hsortmem
    rw [hl]
    refine ⟨g, hg, hspan, ?_⟩
    intro g' hg' hspan'
    by_contra hne
    exact List.Pairwise.forall hsymm hdisj hg' hg hne entry.2.address ⟨hspan', hspan⟩

/-! ## Model selection (`async_isolar.py` lines 14-33, C8) -/

/-- The error `AsyncISolar` raises for a model name outside `MODEL_CONFIGS`
(Python `ValueError`, "Unknown inverter model: …"). -/
inductive ModelError
  | unknownModel (model : String)
  deriving DecidableEq, Repr

/-- The state `AsyncISolar.__init__` establishes: the selected model name,
its cached `ModelConfig` and the transaction-id counter. -/
structure AsyncISolarState where
  model : String
  model_config : ModelConfig
  transaction_id : Nat
  deriving DecidableEq, Repr

/-- `AsyncISolar.__init__` (lines 15-24): an unknown model raises before
any state is established; a known model caches its configuration and
starts the transaction counter at `0x0772`. -/
def async_isolar_init (model : String) : Except ModelError AsyncISolarState :=
  match dictGet MODEL_CONFIGS model with
  | none => .error (.unknownModel model)
  | some cfg => .ok ⟨model, cfg, 0x0772⟩

/-- `AsyncISolar.update_model` (lines 26-33): the `raise` precedes both
assignments, so on rejection the object keeps its previous `model` and
`model_config`; the pair returned is (state after the call, error if any). -/
def update_model (s : AsyncISolarState) (model : String) :
    AsyncISolarState × Option ModelError :=
  match dictGet MODEL_CONFIGS model with
  | none => (s, some (.unknownModel model))
  | some cfg => ({ s with model := model, model_config := cfg }, none)

/-- C8: a model id not present in the supported-model table is rejected
with an error by both `__init__` and `update_model` — never replaced by a
default model — and on rejection `update_model` leaves the previously
selected model and its cached `model_config` unchanged. -/
theorem c8_unknown_model_rejected (model : String) (s : AsyncISolarState)
    (h : dictGet MODEL_CONFIGS model = none) :
    async_isolar_init model = .error (.unknownModel model) ∧
    update_model s model = (s, some (.unknownModel model)) := by
  unfold async_isolar_init update_model
  rw [h]
  exact ⟨rfl, rfl⟩

/-- Witness for C8: the model id "ISOLAR_SMG_II_9K" is not in
`MODEL_CONFIGS`; both entry points reject it and the previously selected
11K state survives `update_model` unchanged. -/
theorem c8_unknown_model_rejected_witness :
    async_isolar_init "ISOLAR_SMG_II_9K" = .error (.unknownModel "ISOLAR_SMG_II_9K") ∧
    update_model ⟨"ISOLAR_SMG_II_11K", ISOLAR_SMG_II_11K, 0x0772⟩ "ISOLAR_SMG_II_9K" =
      (⟨"ISOLAR_SMG_II_11K", ISOLAR_SMG_II_11K, 0x0772⟩,
        some (.unknownModel "ISOLAR_SMG_II_9K")) :=
  c8_unknown_model_rejected "ISOLAR_SMG_II_9K"
    ⟨"ISOLAR_SMG_II_11K", ISOLAR_SMG_II_11K, 0x0772⟩ (by decide)

/-! ## Python value and string primitives -/

/-- A Python value carried in a decoded-values dict: a `float` (the exact
rational a decimal literal denotes), an `int`, or `None`. -/
inductive Val
  | f (q : ℚ)
  | i (z : ℤ)
  | none'
  deriving DecidableEq, Repr

/-- Split at every character satisfying `p`, keeping empty pieces —
Python's `str.split(sep)` behaviour for a single-character separator. -/
def splitOnPred (p : Char → Bool) : List Char → List (List Char)
  | [] => [[]]
  | c :: rest =>
      match splitOnPred p rest with
      | g :: gs => if p c then [] :: g :: gs else (c :: g) :: gs
      | [] => [[c]]

/-- Python `s.split(' ')`. -/
def pySplitSpace (l : List Char) : List (List Char) :=
  splitOnPred (· == ' ') l

/-- Python `s.split()` (no argument): split on whitespace runs, no empty
pieces, leading/trailing whitespace ignored. -/
def pySplitWs (l : List Char) : List (List Char) :=
  (splitOnPred Char.isWhitespace l).filter (· ≠ [])

/-- Python `s.strip(chars)`: remove the given characters from both ends. -/
def pyStrip (p : Char → Bool) (l : List Char) : List Char :=
  ((l.dropWhile p).reverse.dropWhile p).reverse

/-- The numeric value of a list of decimal digits, `none` when a
non-digit occurs. The empty list yields 0; callers guard emptiness. -/
def decDigits? (l : List Char) : Option Nat :=
  if l.all Char.isDigit then
    some (l.foldl (fun acc c => 10 * acc + (c.toNat - 48)) 0)
  else none

/-- Python `int(s)` on the decimal forms the protocol produces: optional
sign then at least one digit; anything else raises `ValueError` (`none`). -/
def pyInt (field : List Char) : Option Int :=
  match field with
  | '-' :: rest =>
      if rest = [] then none else (decDigits? rest).map fun n => -(n : Int)
  | '+' :: rest =>
      if rest = [] then none else (decDigits? rest).map fun n => (n : Int)
  | l => if l = [] then none else (decDigits? l).map fun n => (n : Int)

/-- Negation on `ℚ` written through `mkRat` so that it evaluates by kernel
reduction; `qNeg_eq` proves it is ordinary negation. -/
def qNeg (q : ℚ) : ℚ := mkRat (-q.num) q.den

/-- Adding an integer to a rational, through `mkRat`; `qAddInt_eq` proves
it is ordinary addition. -/
def qAddInt (q : ℚ) (z : ℤ) : ℚ := mkRat (q.num + z * q.den) q.den

/-- Multiplying a rational by a natural number, through `mkRat`;
`qMulNat_eq` proves it is ordinary multiplication. -/
def qMulNat (q : ℚ) (n : Nat) : ℚ := mkRat (q.num * n) q.den

/-- Division of rationals, through `mkRat`; `qDiv_eq` proves it is ordinary
division for a non-zero divisor. -/
def qDiv (a b : ℚ) : ℚ :=
  if b.num < 0 then mkRat (-(a.num * b.den)) (a.den * b.num.natAbs)
  else mkRat (a.num * b.den) (a.den * b.num.natAbs)

theorem qNeg_eq (q : ℚ) : qNeg q = -q := by
  rw [qNeg, Rat.mkRat_eq_div]
  push_cast
  rw [neg_div, Rat.num_div_den]

theorem qAddInt_eq (q : ℚ) (z : ℤ) : qAddInt q z = q + z := by
  have hden : ((q.den : ℚ)) ≠ 0 := Nat.cast_ne_zero.mpr q.den_nz
  rw [qAddInt, Rat.mkRat_eq_div]
  push_cast
  rw [add_div, Rat.num_div_den, mul_div_assoc, div_self hden, mul_one]

/-- Addition on `ℚ` written through `mkRat` so that it evaluates by kernel
reduction; `qAdd_eq` proves it is ordinary addition. -/
def qAdd (a b : ℚ) : ℚ := mkRat (a.num * b.den + b.num * a.den) (a.den * b.den)

theorem qAdd_eq (a b : ℚ) : qAdd a b = a + b := by
  have hda : ((a.den : ℚ)) ≠ 0 := Nat.cast_ne_zero.mpr a.den_nz
  have hdb : ((b.den : ℚ)) ≠ 0 := Nat.cast_ne_zero.mpr b.den_nz
  rw [qAdd, Rat.mkRat_eq_div]
  push_cast
  conv_rhs => rw [← Rat.num_div_den a, ← Rat.num_div_den b]
  field_simp

theorem qMulNat_eq (q : ℚ) (n : Nat) : qMulNat q n = q * n := by
  have hden : ((q.den : ℚ)) ≠ 0 := Nat.cast_ne_zero.mpr q.den_nz
  rw [qMulNat, Rat.mkRat_eq_div]
  push_cast
  conv_rhs => rw [← Rat.num_div_den q]
  field_simp

theorem rat_div_as_fraction (a b : ℚ) (hb : b ≠ 0) :
    ((a.num : ℚ) * (b.den : ℚ)) / ((a.den : ℚ) * (b.num : ℚ)) = a / b := by
  have hbnum : (b.num : ℚ) ≠ 0 := by
    rw [Int.cast_ne_zero, Rat.num_ne_zero]
    exact hb
  have hda : ((a.den : ℚ)) ≠ 0 := Nat.cast_ne_zero.mpr a.den_nz
  have hdb : ((b.den : ℚ)) ≠ 0 := Nat.cast_ne_zero.mpr b.den_nz
  conv_rhs => rw [← Rat.num_div_den a, ← Rat.num_div_den b]
  field_simp

theorem qDiv_eq (a b : ℚ) (hb : b ≠ 0) : qDiv a b = a / b := by
  unfold qDiv
  split_ifs with h
  · rw [Rat.mkRat_eq_div]
    have hnum : ((-(a.num * b.den) : ℤ) : ℚ) = -((a.num : ℚ) * (b.den : ℚ)) := by
      push_cast; ring
    have hden : ((a.den * b.num.natAbs : ℕ) : ℚ) = -((a.den : ℚ) * (b.num : ℚ)) := by
      push_cast [Int.cast_natAbs]
      rw [abs_of_neg (show ((b.num : ℚ)) < 0 by exact_mod_cast h)]
      ring
    rw [hnum, hden, neg_div_neg_eq]
    exact rat_div_as_fraction a b hb
  · rw [Rat.mkRat_eq_div]
    have hnum : ((a.num * b.den : ℤ) : ℚ) = (a.num : ℚ) * (b.den : ℚ) := by
      push_cast; ring
    have hden : ((a.den * b.num.natAbs : ℕ) : ℚ) = (a.den : ℚ) * (b.num : ℚ) := by
      push_cast [Int.cast_natAbs]
      rw [abs_of_nonneg (show (0 : ℚ) ≤ (b.num : ℚ) by exact_mod_cast not_lt.mp h)]
    rw [hnum, hden]
    exact rat_div_as_fraction a b hb

/-- The exact value of the decimal literal `i.f` with `k` fraction digits,
as built by `pyFloatCore`; this certifies the `mkRat` encoding. -/
theorem decimal_value (i f k : Nat) :
    (mkRat (Int.ofNat (i * 10 ^ k + f)) (10 ^ k) : ℚ) = (i : ℚ) + (f : ℚ) / 10 ^ k := by
  have h10 : ((10 : ℚ)) ^ k ≠ 0 := pow_ne_zero k (by norm_num)
  rw [Rat.mkRat_eq_div]
  push_cast
  field_simp

/-- The unsigned part of Python `float(s)`: digits with an optional single
decimal point (at least one digit overall). The value `i + f / 10^k` is
written through `mkRat` (see `decimal_value`) so that it evaluates by
kernel reduction. -/
def pyFloatCore (l : List Char) : Option ℚ :=
  match splitOnPred (· == '.') l with
  | [ip] =>
      if ip = [] then none
      else (decDigits? ip).map fun n => mkRat (Int.ofNat n) 1
  | [ip, fp] =>
      if ip = [] ∧ fp = [] then none
      else
        match decDigits? ip, decDigits? fp with
        | some ipart, some fpart =>
            some (mkRat (Int.ofNat (ipart * 10 ^ fp.length + fpart)) (10 ^ fp.length))
        | _, _ => none
  | _ => none

/-- Python `float(s)` on the plain decimal forms the protocol produces:
optional sign, then digits with an optional decimal point; anything else
raises `ValueError` (`none`). -/
def pyFloat (field : List Char) : Option ℚ :=
  match field with
  | '-' :: rest => (pyFloatCore rest).map qNeg
  | '+' :: rest => pyFloatCore rest
  | l => pyFloatCore l

/-! ## `parse_qpgis` (`easunpy/async_ascii_commands.py` lines 11-37, C5) -/

/-- The field list of `parse_qpgis`: `raw.strip('(').split(' ')`. -/
def qpgis_fields (raw : String) : List (List Char) :=
  pySplitSpace (pyStrip (· == '(') raw.data)

/-- The field table of `parse_qpgis`, one row per conversion of its `try`
body, in source order: dict key, field index, and whether the source
applies `float` (`true`) or `int` (`false`). -/
def qpgisSpec : List (String × Nat × Bool) :=
  [("grid_voltage", 0, true), ("grid_frequency", 1, true),
   ("output_voltage", 2, true), ("output_frequency", 3, true),
   ("output_apparent_power", 4, false), ("output_power", 5, false),
   ("output_load_percentage", 6, false), ("battery_voltage", 8, true),
   ("battery_charging_current", 9, false), ("battery_soc", 10, false),
   ("inverter_temperature", 11, false), ("pv1_current", 12, true),
   ("pv1_voltage", 13, true), ("battery_discharge_current", 15, false),
   ("pv_charging_power", 19, false)]

/-- One conversion `float(fields[idx])` / `int(fields[idx])` of a table
row, paired with its dict key; `none` is Python's `ValueError`. -/
def convertField (fields : List (List Char)) : String × Nat × Bool → Option (String × Val)
  | (k, idx, true) => (pyFloat (fields.getD idx [])).map fun q => (k, Val.f q)
  | (k, idx, false) => (pyInt (fields.getD idx [])).map fun z => (k, Val.i z)

/-- All conversions of a table, left to right, stopping at the first
`ValueError` — as the Python `try` block does. -/
def convertAll (fields : List (List Char)) :
    List (String × Nat × Bool) → Option (List (String × Val))
  | [] => some []
  | s :: rest =>
      (convertField fields s).bind fun v =>
      (convertAll fields rest).map fun tl => v :: tl

/-- The `try` body of `parse_qpgis`: the fifteen numeric conversions in
source order. An `IndexError` cannot occur because the caller has checked
`len(fields) ≥ 21`. -/
def parse_qpgis_body (fields : List (List Char)) : Option (List (String × Val)) :=
  convertAll fields qpgisSpec

/-- `parse_qpgis`: fewer than 21 fields, or a `ValueError`/`IndexError`
inside the `try`, yields the empty dict; otherwise the fifteen-key dict. -/
def parse_qpgis (raw : String) : List (String × Val) :=
  let fields := qpgis_fields raw
  if fields.length < 21 then []
  else
    match parse_qpgis_body fields with
    | some d => d
    | none => []

theorem convertAll_cons (fields : List (List Char)) (s : String × Nat × Bool)
    (rest : List (String × Nat × Bool)) (d : List (String × Val)) :
    convertAll fields (s :: rest) = some d ↔
    ∃ v tl, convertField fields s = some v ∧ convertAll fields rest = some tl ∧
      d = v :: tl := by
  simp only [convertAll, Option.bind_eq_some, Option.map_eq_some']
  constructor
  · rintro ⟨v, hv, tl, htl, rfl⟩
    exact ⟨v, tl, hv, htl, rfl⟩
  · rintro ⟨v, tl, hv, htl, rfl⟩
    exact ⟨v, hv, tl, htl, rfl⟩

theorem parse_qpgis_body_lookups (fields : List (List Char)) (d : List (String × Val))
    (h : parse_qpgis_body fields = some d) :
    dictGet d "battery_voltage" = Option.map Val.f (pyFloat (fields.getD 8 [])) ∧
    dictGet d "battery_soc" = Option.map Val.i (pyInt (fields.getD 10 [])) ∧
    dictGet d "pv1_voltage" = Option.map Val.f (pyFloat (fields.getD 13 [])) := by
  unfold parse_qpgis_body qpgisSpec at h
  rw [convertAll_cons] at h; obtain ⟨v0, d, hv0, h, rfl⟩ := h
  rw [convertAll_cons] at h; obtain ⟨v1, d, hv1, h, rfl⟩ := h
  rw [convertAll_cons] at h; obtain ⟨v2, d, hv2, h, rfl⟩ := h
  rw [convertAll_cons] at h; obtain ⟨v3, d, hv3, h, rfl⟩ := h
  rw [convertAll_cons] at h; obtain ⟨v4, d, hv4, h, rfl⟩ := h
  rw [convertAll_cons] at h; obtain ⟨v5, d, hv5, h, rfl⟩ := h
  rw [convertAll_cons] at h; obtain ⟨v6, d, hv6, h, rfl⟩ := h
  rw [convertAll_cons] at h; obtain ⟨v8, d, hv8, h, rfl⟩ := h
  rw [convertAll_cons] at h; obtain ⟨v9, d, hv9, h, rfl⟩ := h
  rw [convertAll_cons] at h; obtain ⟨v10, d, hv10, h, rfl⟩ := h
  rw [convertAll_cons] at h; obtain ⟨v11, d, hv11, h, rfl⟩ := h
  rw [convertAll_cons] at h; obtain ⟨v12, d, hv12, h, rfl⟩ := h
  rw [convertAll_cons] at h; obtain ⟨v13, d, hv13, h, rfl⟩ := h
  rw [convertAll_cons] at h; obtain ⟨v15, d, hv15, h, rfl⟩ := h
  rw [convertAll_cons] at h; obtain ⟨v19, d, hv19, h, rfl⟩ := h
  simp only [convertField, Option.map_eq_some'] at hv0 hv1 hv2 hv3 hv4 hv5 hv6 hv8 hv9 hv10 hv11 hv12 hv13 hv15 hv19
  obtain ⟨q0, hq0, rfl⟩ := hv0
  obtain ⟨q1, hq1, rfl⟩ := hv1
  obtain ⟨q2, hq2, rfl⟩ := hv2
  obtain ⟨q3, hq3, rfl⟩ := hv3
  obtain ⟨z4, hz4, rfl⟩ := hv4
  obtain ⟨z5, hz5, rfl⟩ := hv5
  obtain ⟨z6, hz6, rfl⟩ := hv6
  obtain ⟨q8, hq8, rfl⟩ := hv8
  obtain ⟨z9, hz9, rfl⟩ := hv9
  obtain ⟨z10, hz10, rfl⟩ := hv10
  obtain ⟨z11, hz11, rfl⟩ := hv11
  obtain ⟨q12, hq12, rfl⟩ := hv12
  obtain ⟨q13, hq13, rfl⟩ := hv13
  obtain ⟨z15, hz15, rfl⟩ := hv15
  obtain ⟨z19, hz19, rfl⟩ := hv19
  rw [hq8, hz10, hq13]
  refine ⟨?_, ?_, ?_⟩ <;> rfl

/-- C5: for a QPIGS response with at least 21 fields that parses, the
decoded dict takes `battery_voltage` literally from field index 8,
`battery_soc` from index 10 and `pv1_voltage` from index 13; a response
with fewer than 21 fields parses to the empty dict (and the `try/except`
around the body means no exception escapes in either case). -/
theorem c5_qpigs_field_mapping (raw : String) :
    (21 ≤ (qpgis_fields raw).length → parse_qpgis raw ≠ [] →
      dictGet (parse_qpgis raw) "battery_voltage" =
        Option.map Val.f (pyFloat ((qpgis_fields raw).getD 8 [])) ∧
      dictGet (parse_qpgis raw) "battery_soc" =
        Option.map Val.i (pyInt ((qpgis_fields raw).getD 10 [])) ∧
      dictGet (parse_qpgis raw) "pv1_voltage" =
        Option.map Val.f (pyFloat ((qpgis_fields raw).getD 13 []))) ∧
    ((qpgis_fields raw).length < 21 → parse_qpgis raw = []) := by
  constructor
  · intro h21 hne
    have hp : parse_qpgis raw =
        match parse_qpgis_body (qpgis_fields raw) with
        | some d => d
        | none => [] := by
      unfold parse_qpgis
      rw [if_neg (by omega)]
    rcases hbody : parse_qpgis_body (qpgis_fields raw) with _ | d
    · rw [hp, hbody] at hne
      exact absurd rfl hne
    · rw [hp, hbody]
      exact parse_qpgis_body_lookups _ d hbody
  · intro h21
    unfold parse_qpgis
    rw [if_pos h21]

/-- A well-formed QPIGS reference line with exactly 21 fields: field 8 is
the battery voltage `54.10`, field 10 the SOC `100`, field 13 the PV1
voltage `123.4`. -/
def qpigsRef : String :=
  "(230.0 49.9 230.0 49.9 0377 0343 007 430 54.10 002 100 0019 00.0 123.4 00.00 00000 00010101 00 00 00000 110"

/-- Witness for C5 at a well-formed 21-field QPIGS reference line and at a
short line: the three quantities come from fields 8, 10 and 13 of the
reference (battery 54.10 V, SOC 100 %, PV1 123.4 V), and the short line
parses to the empty dict. -/
theorem c5_qpigs_field_mapping_witness :
    (dictGet (parse_qpgis qpigsRef) "battery_voltage" = some (.f (mkRat 541 10)) ∧
      dictGet (parse_qpgis qpigsRef) "battery_soc" = some (.i 100) ∧
      dictGet (parse_qpgis qpigsRef) "pv1_voltage" = some (.f (mkRat 1234 10))) ∧
    parse_qpgis "(230.0 49.9" = [] := by
  have h := (c5_qpigs_field_mapping qpigsRef).1 (by decide) (by decide)
  exact ⟨⟨h.1.trans (by decide), h.2.1.trans (by decide), h.2.2.trans (by decide)⟩,
    (c5_qpigs_field_mapping "(230.0 49.9").2 (by decide)⟩

/-! ## `_parse_ascii_responses` (`async_isolar.py` lines 96-174) and the
snapshot sub-records (lines 250-315), for C2 -/

/-- Python dict assignment `d[k] = v`: replace in place, or append. -/
def dictSet : List (String × Val) → String → Val → List (String × Val)
  | [], k, v => [(k, v)]
  | (k', v') :: rest, k, v =>
      if k' == k then (k, v) :: rest else (k', v') :: dictSet rest k v

/-- A run of dict assignments, in order. -/
def dictSetAll (d : List (String × Val)) (kvs : List (String × Val)) :
    List (String × Val) :=
  kvs.foldl (fun d kv => dictSet d kv.1 kv.2) d

/-- Python `d.setdefault(k, v)`. -/
def dictSetdefault (d : List (String × Val)) (k : String) (v : Val) :
    List (String × Val) :=
  if (dictGet d k).isSome then d else d ++ [(k, v)]

/-- Python subscription `d[k]`; a missing key is a `KeyError`. -/
def keyGet (d : List (String × Val)) (k : String) : Except String Val :=
  match dictGet d k with
  | some v => .ok v
  | none => .error "KeyError"

/-- Python `v > 0` on a dict value; `None > 0` is a `TypeError`. -/
def pyGtZero : Val → Except String Bool
  | .f q => .ok (decide (0 < q))
  | .i z => .ok (decide (0 < z))
  | .none' => .error "TypeError"

/-- Python `/` on two numeric dict values (always float division here). -/
def pyDiv : Val → Val → Except String Val
  | .f a, .f b => .ok (.f (qDiv a b))
  | .i a, .f b => .ok (.f (qDiv (mkRat a 1) b))
  | .f a, .i b => .ok (.f (qDiv a (mkRat b 1)))
  | .i a, .i b => .ok (.f (qDiv (mkRat a 1) (mkRat b 1)))
  | _, _ => .error "TypeError"

/-- Python `+` on two numeric dict values. -/
def pyAdd : Val → Val → Except String Val
  | .i a, .i b => .ok (.i (a + b))
  | .f a, .f b => .ok (.f (qAdd a b))
  | .i a, .f b => .ok (.f (qAdd (mkRat a 1) b))
  | .f a, .i b => .ok (.f (qAdd a (mkRat b 1)))
  | _, _ => .error "TypeError"

/-- Python `v * 100` on a dict value. -/
def valMul100 : Val → Except String Val
  | .f q => .ok (.f (qMulNat q 100))
  | .i z => .ok (.i (z * 100))
  | .none' => .error "TypeError"

/-- Python `int(x)` on an exact rational: truncation toward zero. -/
def ratTrunc (q : ℚ) : ℤ := q.num.tdiv q.den

/-- Python `int(v)` on a numeric dict value. -/
def pyIntFn : Val → Except String Val
  | .f q => .ok (.i (ratTrunc q))
  | .i z => .ok (.i z)
  | .none' => .error "TypeError"

/-- The QPIGS conversion table of `_parse_ascii_responses`
(async_isolar.py lines 104-117), one row per assignment in source order:
dict key, field index, `float` (`true`) or `int` (`false`). Note this
table differs from `parse_qpgis`: no `inverter_temperature`, and field 19
lands in `pv1_power`. -/
def qpigsIsolarSpec : List (String × Nat × Bool) :=
  [("grid_voltage", 0, true), ("grid_frequency", 1, true),
   ("output_voltage", 2, true), ("output_frequency", 3, true),
   ("output_apparent_power", 4, false), ("output_power", 5, false),
   ("output_load_percentage", 6, false), ("battery_voltage", 8, true),
   ("battery_charging_current", 9, false), ("battery_soc", 10, false),
   ("pv1_current", 12, true), ("pv1_voltage", 13, true),
   ("battery_discharge_current", 15, false), ("pv1_power", 19, false)]

/-- The QPIGS branch (lines 100-129): `fields = qpigs[1:].split()`; with
at least 21 fields, the fourteen conversions of `qpigsIsolarSpec`, then
`output_current = output_apparent_power / output_voltage` when the output
voltage is positive (else `0.0`), then `grid_power = 0` when the grid
voltage is positive. An uncaught `ValueError` propagates (`.error`). -/
def qpigs_block (values : List (String × Val)) (qpigs : String) :
    Except String (List (String × Val)) :=
  let fields := pySplitWs (qpigs.data.drop 1)
  if fields.length < 21 then .ok values
  else
    match convertAll fields qpigsIsolarSpec with
    | none => .error "ValueError"
    | some kvs => do
        let values := dictSetAll values kvs
        let ov ← keyGet values "output_voltage"
        let ovPos ← pyGtZero ov
        let values ←
          if ovPos then do
            let ap ← keyGet values "output_apparent_power"
            let oc ← pyDiv ap ov
            pure (dictSet values "output_current" oc)
          else pure (dictSet values "output_current" (.f (mkRat 0 1)))
        let gv ← keyGet values "grid_voltage"
        let gvPos ← pyGtZero gv
        pure (if gvPos then dictSet values "grid_power" (.i 0) else values)

/-- The QPIGS2 conversion table (lines 136-138). -/
def qpigs2Spec : List (String × Nat × Bool) :=
  [("pv2_current", 0, true), ("pv2_voltage", 1, true), ("pv2_power", 2, false)]

/-- The QPIGS2 branch (lines 132-142): with at least 3 fields, the three
conversions, then `pv_total_power = values.get('pv1_power', 0) + pv2_power`. -/
def qpigs2_block (values : List (String × Val)) (q2 : String) :
    Except String (List (String × Val)) :=
  let fields := pySplitWs (q2.data.drop 1)
  if fields.length < 3 then .ok values
  else
    match convertAll fields qpigs2Spec with
    | none => .error "ValueError"
    | some kvs => do
        let values := dictSetAll values kvs
        let pv1 := (dictGet values "pv1_power").getD (.i 0)
        let pv2 ← keyGet values "pv2_power"
        let total ← pyAdd pv1 pv2
        pure (dictSet values "pv_total_power" total)

/-- The QMOD branch (lines 145-155): `mode_char = qmod[1]` — an
`IndexError` on a response shorter than two characters — then the
`L`/`B`/`F`/other mapping to 2/3/1/0. -/
def qmod_block (values : List (String × Val)) (qmod : String) :
    Except String (List (String × Val)) :=
  match qmod.data with
  | _ :: mode_char :: _ =>
      let m : Int :=
        if mode_char = 'L' then 2
        else if mode_char = 'B' then 3
        else if mode_char = 'F' then 1
        else 0
      .ok (dictSet values "operation_mode" (.i m))
  | _ => .error "IndexError"

/-- The frequency fixed-point step (lines 160-163):
`values[k] = int(values[k] * 100)` when the key is present. -/
def scale_freq (values : List (String × Val)) (k : String) :
    Except String (List (String × Val)) :=
  match dictGet values k with
  | none => .ok values
  | some v => do
      let scaled ← valMul100 v
      let iv ← pyIntFn scaled
      pure (dictSet values k iv)

/-- The `setdefault` block (lines 166-172), in source order. -/
def apply_defaults (values : List (String × Val)) : List (String × Val) :=
  let values := dictSetdefault values "battery_temperature" (.i 0)
  let values := dictSetdefault values "pv_temperature" (.i 0)
  let values := dictSetdefault values "grid_current" (.f (mkRat 0 1))
  let values := dictSetdefault values "pv_charging_power"
    ((dictGet values "pv1_power").getD (.i 0))
  let values := dictSetdefault values "pv_charging_current"
    ((dictGet values "pv1_current").getD (.f (mkRat 0 1)))
  let values := dictSetdefault values "pv_generated_today" .none'
  dictSetdefault values "pv_generated_total" .none'

/-- `_parse_ascii_responses` up to — but not including — the `setdefault`
block: exactly the key/value pairs decoded (or derived) from the response
texts. `if qpigs:` is Python truthiness: a missing or empty response skips
its branch. -/
def parse_ascii_responses_core (responses : List (String × String)) :
    Except String (List (String × Val)) := do
  let values : List (String × Val) := []
  let values ←
    match dictGet responses "QPIGS" with
    | some q => if q.data.isEmpty then pure values else qpigs_block values q
    | none => pure values
  let values ←
    match dictGet responses "QPIGS2" with
    | some q => if q.data.isEmpty then pure values else qpigs2_block values q
    | none => pure values
  let values ←
    match dictGet responses "QMOD" with
    | some q => if q.data.isEmpty then pure values else qmod_block values q
    | none => pure values
  let values ← scale_freq values "grid_frequency"
  scale_freq values "output_frequency"

/-- `_parse_ascii_responses` in full: the decoded core followed by the
`setdefault` block. -/
def parse_ascii_responses (responses : List (String × String)) :
    Except String (List (String × Val)) :=
  (parse_ascii_responses_core responses).map apply_defaults

/-- `BatteryData` (models.py lines 6-12); field values as the Python
runtime holds them. -/
structure BatteryData where
  voltage : Val
  current : Val
  power : Val
  soc : Val
  temperature : Val
  deriving DecidableEq, Repr

/-- `PVData` (models.py lines 14-27). -/
structure PVData where
  total_power : Val
  charging_power : Val
  charging_current : Val
  temperature : Val
  pv1_voltage : Val
  pv1_current : Val
  pv1_power : Val
  pv2_voltage : Val
  pv2_current : Val
  pv2_power : Val
  pv_generated_today : Val
  pv_generated_total : Val
  deriving DecidableEq, Repr

/-- `GridData` (models.py lines 29-33). -/
structure GridData where
  voltage : Val
  power : Val
  frequency : Val
  deriving DecidableEq, Repr

/-- `OutputData` (models.py lines 35-42). -/
structure OutputData where
  voltage : Val
  current : Val
  power : Val
  apparent_power : Val
  load_percentage : Val
  frequency : Val
  deriving DecidableEq, Repr

/-- Python `values.get(k)`: the stored value, or `None` when absent —
indistinguishable in Python from a stored `None`. -/
def pyGet (d : List (String × Val)) (k : String) : Val :=
  (dictGet d k).getD .none'

/-- `_create_battery_data` (async_isolar.py lines 250-263): the record is
built only when all five keys are in the dict (the `all(...)` gate); under
that gate `values[k]` and `pyGet` agree, and the constructor cannot raise,
so the `except` branch is dead. -/
def create_battery_data (values : List (String × Val)) : Option BatteryData :=
  if ["battery_voltage", "battery_current", "battery_power", "battery_soc",
      "battery_temperature"].all (fun k => (dictGet values k).isSome) then
    some ⟨pyGet values "battery_voltage", pyGet values "battery_current",
      pyGet values "battery_power", pyGet values "battery_soc",
      pyGet values "battery_temperature"⟩
  else none

/-- `_create_pv_data` (lines 265-286): gated on *any* of three keys; all
fields through `values.get`. -/
def create_pv_data (values : List (String × Val)) : Option PVData :=
  if ["pv_total_power", "pv1_voltage", "pv2_voltage"].any
      (fun k => (dictGet values k).isSome) then
    some ⟨pyGet values "pv_total_power", pyGet values "pv_charging_power",
      pyGet values "pv_charging_current", pyGet values "pv_temperature",
      pyGet values "pv1_voltage", pyGet values "pv1_current",
      pyGet values "pv1_power", pyGet values "pv2_voltage",
      pyGet values "pv2_current", pyGet values "pv2_power",
      pyGet values "pv_generated_today", pyGet values "pv_generated_total"⟩
  else none

/-- `_create_grid_data` (lines 288-299). -/
def create_grid_data (values : List (String × Val)) : Option GridData :=
  if ["grid_voltage", "grid_power"].any (fun k => (dictGet values k).isSome) then
    some ⟨pyGet values "grid_voltage", pyGet values "grid_power",
      pyGet values "grid_frequency"⟩
  else none

/-- `_create_output_data` (lines 301-315). -/
def create_output_data (values : List (String × Val)) : Option OutputData :=
  if ["output_voltage", "output_power"].any (fun k => (dictGet values k).isSome) then
    some ⟨pyGet values "output_voltage", pyGet values "output_current",
      pyGet values "output_power", pyGet values "output_apparent_power",
      pyGet values "output_load_percentage", pyGet values "output_frequency"⟩
  else none

/-- Leap-year rule of the proleptic Gregorian calendar used by
`datetime.datetime`. -/
def is_leap (y : Int) : Bool := (y % 4 == 0 && y % 100 != 0) || y % 400 == 0

/-- Days in a month, as `datetime.datetime` validates them. -/
def days_in_month (y m : Int) : Int :=
  if m = 1 ∨ m = 3 ∨ m = 5 ∨ m = 7 ∨ m = 8 ∨ m = 10 ∨ m = 12 then 31
  else if m = 4 ∨ m = 6 ∨ m = 9 ∨ m = 11 then 30
  else if is_leap y then 29 else 28

/-- The argument ranges `datetime.datetime(y, mo, d, h, mi, s)` accepts;
anything else raises and the inner `except` leaves the timestamp `None`. -/
def datetime_ok (y mo d h mi s : Int) : Bool :=
  1 ≤ y && y ≤ 9999 && 1 ≤ mo && mo ≤ 12 && 1 ≤ d && d ≤ days_in_month y mo &&
  0 ≤ h && h < 24 && 0 ≤ mi && mi < 60 && 0 ≤ s && s < 60

/-- The timestamp block of `_create_system_status` (async_isolar.py lines
321-332): present only when all six `time_register_i` keys hold integers
forming a valid datetime; any exception is caught and leaves `None`
(a non-`int` value raises `TypeError` inside `datetime.datetime`). -/
def mk_inverter_timestamp (values : List (String × Val)) :
    Option (Int × Int × Int × Int × Int × Int) :=
  if ["time_register_0", "time_register_1", "time_register_2", "time_register_3",
      "time_register_4", "time_register_5"].all (fun k => (dictGet values k).isSome) then
    match pyGet values "time_register_0", pyGet values "time_register_1",
        pyGet values "time_register_2", pyGet values "time_register_3",
        pyGet values "time_register_4", pyGet values "time_register_5" with
    | .i y, .i mo, .i d, .i h, .i mi, .i s =>
        if datetime_ok y mo d h mi s then some (y, mo, d, h, mi, s) else none
    | _, _, _, _, _, _ => none
  else none

/-- `SystemStatus` (models.py lines 48-52); the operating mode is kept as
the `OperatingMode` enum's value (`SUB = 2`, `SBU = 3`). -/
structure SystemStatusR where
  operating_mode : Int
  mode_name : String
  inverter_time : Option (Int × Int × Int × Int × Int × Int)
  deriving DecidableEq, Repr

/-- Python `==` between a dict value and an `int` (enum lookup by value:
`2.0 == 2` holds). -/
def valEqInt : Val → Int → Bool
  | .i z, m => z == m
  | .f q, m => q == mkRat m 1
  | .none', _ => false

/-- `_create_system_status` (async_isolar.py lines 317-352): `None` when
`operation_mode` is absent; `OperatingMode(mode_value)` succeeds only for
the values 2 (`SUB`) and 3 (`SBU`) — `models.py`'s enum has no other
member; for any other value the `except ValueError` branch evaluates
`OperatingMode.FAULT`, which does not exist, and the resulting
`AttributeError` is caught by the outer `except`, returning `None`. -/
def create_system_status (values : List (String × Val)) : Option SystemStatusR :=
  let ts := mk_inverter_timestamp values
  match dictGet values "operation_mode" with
  | none => none
  | some v =>
      if valEqInt v 2 then some ⟨2, "SUB", ts⟩
      else if valEqInt v 3 then some ⟨3, "SBU", ts⟩
      else none

/-- The keys `_parse_ascii_responses` decodes (or derives) from the
response texts, before the `setdefault` zero-filling. -/
def decoded_keys (responses : List (String × String)) : List String :=
  match parse_ascii_responses_core responses with
  | .ok d => d.map Prod.fst
  | .error _ => []

/-- The PV sub-record `get_all_data` assembles from ASCII responses. -/
def assembled_pv (responses : List (String × String)) : Option PVData :=
  match parse_ascii_responses responses with
  | .ok v => create_pv_data v
  | .error _ => none

/-- A session's responses: one well-formed 21-field QPIGS line, nothing
else — no temperature quantity decodes from it. -/
def example_responses : List (String × String) := [("QPIGS", qpigsRef)]

/-- C2 counterexample: with a plain QPIGS response, `pv_temperature` is
never decoded, yet the assembled snapshot's PV sub-record carries
`temperature = 0` — the `setdefault` block of `_parse_ascii_responses`
zero-fills it, contradicting "an absent decoded quantity is never replaced
by a zero value in the assembled snapshot". -/
theorem c2_zero_fill_counterexample :
    "pv_temperature" ∉ decoded_keys example_responses ∧
    (assembled_pv example_responses).map (fun pv => pv.temperature) =
      some (Val.i 0) := by
  decide

/-- C2 as amended: each sub-record is built exactly when its gate holds on
the merged values dict — Battery requires all five of its keys, PV any of
three, Grid and Output any of two, SystemStatus an `operation_mode` equal
to a known mode value (2 or 3) — and is `None` otherwise; but (per the
counterexample) the ASCII parser zero-fills `battery_temperature`,
`pv_temperature` and `grid_current` defaults before assembly, so an absent
decoded quantity can reach the snapshot as zero. -/
theorem c2_subrecord_gating (values : List (String × Val)) :
    ((create_battery_data values).isSome ↔
      (["battery_voltage", "battery_current", "battery_power", "battery_soc",
        "battery_temperature"].all fun k => (dictGet values k).isSome) = true) ∧
    ((create_pv_data values).isSome ↔
      (["pv_total_power", "pv1_voltage", "pv2_voltage"].any
        fun k => (dictGet values k).isSome) = true) ∧
    ((create_grid_data values).isSome ↔
      (["grid_voltage", "grid_power"].any fun k => (dictGet values k).isSome) = true) ∧
    ((create_output_data values).isSome ↔
      (["output_voltage", "output_power"].any
        fun k => (dictGet values k).isSome) = true) ∧
    ((create_system_status values).isSome ↔
      ∃ v, dictGet values "operation_mode" = some v ∧
        (valEqInt v 2 = true ∨ valEqInt v 3 = true)) := by
  refine ⟨?_, ?_, ?_, ?_, ?_⟩
  · unfold create_battery_data
    split_ifs with h <;> simp [h]
  · unfold create_pv_data
    split_ifs with h <;> simp [h]
  · unfold create_grid_data
    split_ifs with h <;> simp [h]
  · unfold create_output_data
    split_ifs with h <;> simp [h]
  · rcases hv : dictGet values "operation_mode" with _ | v
    · simp [create_system_status, hv]
    · by_cases h2 : valEqInt v 2 = true
      · simp [create_system_status, hv, h2]
      · by_cases h3 : valEqInt v 3 = true
        · simp [create_system_status, hv, h2, h3]
        · simp [create_system_status, hv, h2, h3]

/-! ## C4: the encode/decode relation of the frame codec -/

/-- C4 counterexample: two frames encoded from different transaction ids
(5 and 6, same binary command) decode to the same result, so
`decode_modbus_response` cannot recover the transaction id; and the result
`[768]` is not the inner payload bytes either — the decoder treats a
request's unit id as a response's byte count and reads the word at the
wrong offset. -/
theorem c4_decode_loses_transaction_id :
    (5 : Nat) ≠ 6 ∧
    create_request 5 1 none 1 3 0 1 ≠ create_request 6 1 none 1 3 0 1 ∧
    decode_modbus_response (create_request 5 1 none 1 3 0 1) 1 "Int" false =
      decode_modbus_response (create_request 6 1 none 1 3 0 1) 1 "Int" false ∧
    decode_modbus_response (create_request 5 1 none 1 3 0 1) 1 "Int" false =
      .vals [768] ∧
    decode_modbus_response (create_request 5 1 none 1 3 0 1) 1 "Int" false ≠
      .vals [1, 3, 0, 0, 0, 1] := by
  decide

/-- Decoding a well-formed ASCII frame: any 4 leading header bytes, correct
big-endian length bytes, the `0xFF 0x04` markers, an all-ASCII body and a
3-byte CRC+CR tail decode to the body's text. -/
theorem decode_ascii_frame (x0 x1 x2 x3 c1 c2 : Nat) (body : List Nat)
    (register_count : Nat) (data_format : String)
    (hlen : body.length + 5 < 65536) (hascii : (body.all fun b => b < 128) = true) :
    decode_modbus_response
      (x0 :: x1 :: x2 :: x3 :: ((body.length + 5) / 256) :: ((body.length + 5) % 256) ::
        255 :: 4 :: (body ++ [c1, c2, 13])) register_count data_format true =
      .text (some ⟨body.map Char.ofNat⟩) := by
  set L := x0 :: x1 :: x2 :: x3 :: ((body.length + 5) / 256) :: ((body.length + 5) % 256) ::
    255 :: 4 :: (body ++ [c1, c2, 13]) with hL
  have hlenL : L.length = body.length + 11 := by
    rw [hL]; simp
  have hmsg : msg_len_of L = body.length + 5 := by
    rw [hL]
    simp only [msg_len_of, List.getD_cons_succ, List.getD_cons_zero]
    omega
  have hpay : payload_of L = 255 :: 4 :: (body ++ [c1, c2, 13]) := by
    rw [payload_of, hmsg, hL]
    simp only [List.drop_succ_cons, List.drop_zero]
    apply List.take_of_length_le
    simp
  have hpaylen : (payload_of L).length = body.length + 5 := by
    rw [hpay]; simp
  have hdata : (payload_of L).drop 2 = body ++ [c1, c2, 13] := by
    rw [hpay]; rfl
  have hdatalen : ((payload_of L).drop 2).length = body.length + 3 := by
    rw [hdata]; simp
  rw [decode_modbus_response, if_neg (by omega), if_neg (by rw [hlenL, hmsg]; omega),
    if_neg (by rw [hpaylen]; omega), if_pos rfl, if_neg (by rw [hdatalen]; omega),
    hdata]
  have hlen3 : (body ++ [c1, c2, 13]).length - 3 = body.length := by simp
  rw [hlen3, List.take_left, asciiDecode, if_pos hascii]

/-- C4 as amended: the claim holds for the ASCII command kind — decoding
the encoded frame recovers the original payload text — and the transaction
id is recoverable from the frame itself (its first two bytes are the id,
big-endian), but `decode_modbus_response` discards rather than returns it;
for the binary command kind the decode output is not the payload (see the
counterexample). The hypotheses are Python's own constraints: the command
must encode as ASCII and the remainder length must fit its 2-byte field. -/
theorem c4_ascii_roundtrip (tid : Nat) (cmd : String) (register_count : Nat)
    (data_format : String)
    (hascii : ∀ c ∈ cmd.data, c.toNat < 128)
    (hlen : cmd.data.length + 5 < 65536) :
    decode_modbus_response (create_request tid 1 (some cmd) 1 3 0 1)
      register_count data_format true = .text (some cmd) ∧
    (tid < 65536 →
      (create_request tid 1 (some cmd) 1 3 0 1).take 2 = [tid / 256, tid % 256]) := by
  have hblen : (strBytes cmd).length = cmd.data.length := by
    simp [strBytes]
  have hframe : create_request tid 1 (some cmd) 1 3 0 1 =
      (tid / 256 % 256) :: (tid % 256) :: 0 :: 1 ::
      (((strBytes cmd).length + 5) / 256) :: (((strBytes cmd).length + 5) % 256) ::
      255 :: 4 :: (strBytes cmd ++
        [adjust_crc_byte (crc16_xmodem (strBytes cmd) / 256 % 256),
         adjust_crc_byte (crc16_xmodem (strBytes cmd) % 256), 13]) := by
    simp only [create_request]
    have hpl : ([255, 4] ++ (strBytes cmd ++
        [adjust_crc_byte (crc16_xmodem (strBytes cmd) / 256 % 256),
         adjust_crc_byte (crc16_xmodem (strBytes cmd) % 256), 13])).length =
        (strBytes cmd).length + 5 := by
      simp
    rw [hpl]
    have hdiv : ((strBytes cmd).length + 5) / 256 % 256 = ((strBytes cmd).length + 5) / 256 :=
      Nat.mod_eq_of_lt (by rw [hblen]; omega)
    rw [hdiv]
    simp
  constructor
  · rw [hframe]
    have hall : ((strBytes cmd).all fun b => b < 128) = true := by
      rw [List.all_eq_true]
      intro b hb
      rw [strBytes, List.mem_map] at hb
      obtain ⟨c, hc, rfl⟩ := hb
      exact decide_eq_true_eq.mpr (hascii c hc)
    have hdec := decode_ascii_frame (tid / 256 % 256) (tid % 256) 0 1
      (adjust_crc_byte (crc16_xmodem (strBytes cmd) / 256 % 256))
      (adjust_crc_byte (crc16_xmodem (strBytes cmd) % 256)) (strBytes cmd)
      register_count data_format (by rw [hblen]; omega) hall
    rw [hdec]
    have hmap : (strBytes cmd).map Char.ofNat = cmd.data := by
      rw [strBytes, List.map_map]
      simp only [Function.comp_def, Char.ofNat_toNat, List.map_id']
    rw [hmap]
  · intro htid
    rw [hframe]
    have : tid / 256 % 256 = tid / 256 := Nat.mod_eq_of_lt (by omega)
    rw [this]
    rfl

/-- Witness for C4's amended theorem at the reference command `QPIGS` with
transaction id `0x0772`: the hypotheses (ASCII-encodable text, length in
range, 16-bit id) hold by computation. -/
theorem c4_ascii_roundtrip_witness :
    decode_modbus_response (create_request 0x0772 1 (some "QPIGS") 1 3 0 1)
      1 "Int" true = .text (some "QPIGS") ∧
    (create_request 0x0772 1 (some "QPIGS") 1 3 0 1).take 2 = [0x07, 0x72] := by
  have h := c4_ascii_roundtrip 0x0772 "QPIGS" 1 "Int" (by decide) (by decide)
  exact ⟨h.1, (h.2 (by decide)).trans (by decide)⟩

/-! ## `AsyncPIClient.send_bulk` (`easunpy/async_piclient.py` lines 15-52, C1)

The connection plumbing (`_ensure_connection`, `_lock`, the stream reader
and writer) lives in `async_modbusclient.py`, which is not among the
repository's source files; it is modelled from the spec (§4.2, §4.4) as an
environment: per attempt, whether the connection was established, and per
command index, what the exchange produced. -/

/-- What one command exchange produces: the writer was already closing
(the loop `break`s), the awaited read timed out or was cut short (the
caught `TimeoutError`/`IncompleteReadError`), or a CR-terminated reply
line arrived. -/
inductive Outcome
  | closed
  | timeout
  | reply (s : String)
  deriving DecidableEq, Repr

/-- The environment of one retry attempt: the result of
`await self._ensure_connection()` and the outcome of each command
exchange, by command index. -/
structure AttemptEnv where
  ensure : Bool
  outcomes : Nat → Outcome

/-- The command loop of `send_bulk` from command index `i`: `closed` or
`timeout` abandons the attempt (the partial `responses` list then fails
the `len(responses) == len(commands)` check, or the exception skips it);
only a completed loop yields the response list. -/
def run_attempt_from (outcomes : Nat → Outcome) : Nat → List String → Option (List String)
  | _, [] => some []
  | i, _ :: rest =>
      match outcomes i with
      | .closed => none
      | .timeout => none
      | .reply s => (run_attempt_from outcomes (i + 1) rest).map fun tl => s :: tl

/-- One attempt of `send_bulk`'s retry loop. -/
def run_attempt (env : AttemptEnv) (commands : List String) : Option (List String) :=
  run_attempt_from env.outcomes 0 commands

/-- `send_bulk` (async_piclient.py lines 15-52): up to `retry_count`
attempts (one `AttemptEnv` each, 5 by default); a failed
`_ensure_connection` sleeps and retries; a completed attempt returns its
responses; exhausted retries return `[]`. -/
def send_bulk (envs : List AttemptEnv) (commands : List String) : List String :=
  match envs with
  | [] => []
  | env :: rest =>
      if env.ensure then
        match run_attempt env commands with
        | some rs => rs
        | none => send_bulk rest commands
      else send_bulk rest commands

theorem run_attempt_from_spec (outcomes : Nat → Outcome) (commands : List String)
    (rs : List String) :
    ∀ i, run_attempt_from outcomes i commands = some rs →
      rs.length = commands.length ∧
      ∀ j, j < commands.length → outcomes (i + j) = .reply (rs.getD j "") := by
  induction commands generalizing rs with
  | nil =>
      intro i h
      simp only [run_attempt_from, Option.some.injEq] at h
      subst h
      exact ⟨rfl, fun j hj => absurd hj (Nat.not_lt_zero j)⟩
  | cons c rest ih =>
      intro i h
      simp only [run_attempt_from] at h
      rcases ho : outcomes i with _ | _ | s <;> rw [ho] at h
      · exact absurd h (by simp)
      · exact absurd h (by simp)
      · rw [Option.map_eq_some'] at h
        obtain ⟨tl, htl, rfl⟩ := h
        obtain ⟨hlen, hrest⟩ := ih tl (i + 1) htl
        refine ⟨by simp [hlen], ?_⟩
        intro j hj
        cases j with
        | zero => simpa using ho
        | succ j' =>
            have := hrest j' (by simpa using hj)
            rw [show i + (j' + 1) = i + 1 + j' by omega]
            simpa using this

/-- C1: `send_bulk` returns either the empty list (total failure after all
retries) or, from some attempt whose connection was established, exactly
one response per command — the list has the commands' length and its
`j`-th entry is the reply the connection produced for the `j`-th command —
never a partial list. -/
theorem c1_send_bulk_total_or_complete (envs : List AttemptEnv) (commands : List String) :
    send_bulk envs commands = [] ∨
    ((send_bulk envs commands).length = commands.length ∧
      ∃ env ∈ envs, env.ensure = true ∧
        run_attempt env commands = some (send_bulk envs commands) ∧
        ∀ j, j < commands.length →
          env.outcomes j = .reply ((send_bulk envs commands).getD j "")) := by
  induction envs with
  | nil => exact Or.inl rfl
  | cons env rest ih =>
      by_cases he : env.ensure
      · rcases hr : run_attempt env commands with _ | rs
        · have hsb : send_bulk (env :: rest) commands = send_bulk rest commands := by
            simp [send_bulk, he, hr]
          rw [hsb]
          rcases ih with h | ⟨hlen, env', hmem, hens, hrun, hout⟩
          · exact Or.inl h
          · exact Or.inr ⟨hlen, env', List.mem_cons_of_mem env hmem, hens, hrun, hout⟩
        · have hsb : send_bulk (env :: rest) commands = rs := by
            simp [send_bulk, he, hr]
          rw [hsb]
          obtain ⟨hlen, hout⟩ := run_attempt_from_spec env.outcomes commands rs 0 hr
          refine Or.inr ⟨hlen, env, List.mem_cons_self env rest, he, hr, ?_⟩
          intro j hj
          simpa using hout j hj
      · have hsb : send_bulk (env :: rest) commands = send_bulk rest commands := by
          simp [send_bulk, he]
        rw [hsb]
        rcases ih with h | ⟨hlen, env', hmem, hens, hrun, hout⟩
        · exact Or.inl h
        · exact Or.inr ⟨hlen, env', List.mem_cons_of_mem env hmem, hens, hrun, hout⟩

/-! ## `AsyncAsciiClient._build_command_packet`
(`easunpy/async_asciiclient.py` lines 29-58, C9) -/

/-- A Python runtime value in the packet builder: an integer, or the
coroutine object a bare call of an `async def` method returns. -/
inductive PyObj
  | int (z : ℤ)
  | coroutine (method : String)
  deriving DecidableEq, Repr

/-- Calling an `async def` method without `await` yields a coroutine
object, not the method's result. `_get_next_transaction_id` (lines 29-33)
is `async def`; `_build_command_packet` (line 37) calls it bare. -/
def call_async_unawaited (method : String) : PyObj := .coroutine method

/-- Python `x >> n`: arithmetic shift on an `int`; a `TypeError` on a
coroutine object. -/
def pyShiftRight : PyObj → Nat → Except String ℤ
  | .int z, k => .ok (Int.fdiv z (2 ^ k))
  | .coroutine _, _ => .error "TypeError"

/-- Python `x & m`: bitwise and on an `int`; a `TypeError` on a coroutine
object. -/
def pyAnd : PyObj → Nat → Except String ℤ
  | .int z, m => .ok (Int.land z m)
  | .coroutine _, _ => .error "TypeError"

/-- `_build_command_packet` (lines 35-58): the missing `await` makes
`trans_id` a coroutine object; the CRC and data bytes are computed first
(lines 38-46), then `(trans_id >> 8) & 0xFF` at line 49 raises `TypeError`
before any packet is assembled. The CRC helpers come from `crc_xmodem.py`,
absent from the sources and modelled from the spec (§4.1). -/
def build_command_packet (command : String) : Except String (List Nat) := do
  let trans_id := call_async_unawaited "_get_next_transaction_id"
  let command_bytes := strBytes command
  let crc := crc16_xmodem command_bytes
  let crc_high := adjust_crc_byte (crc / 256 % 256)
  let crc_low := adjust_crc_byte (crc % 256)
  let data := command_bytes ++ [crc_high, crc_low, 0x0D]
  let length := data.length + 2
  let tid_shift ← pyShiftRight trans_id 8
  let tid_hi := Int.land tid_shift 0xFF
  let tid_lo ← pyAnd trans_id 0xFF
  pure ([tid_hi.toNat, tid_lo.toNat, 0x00, 0x01,
    length / 256 % 256, length % 256, 0xFF, 0x04] ++ data)

/-- `send_command` (lines 119-150): after the connection steps it builds
the packet — which always raises — so no command is ever written; the
response exchange is abstracted as an environment function. -/
def send_command (env : List Nat → String) (command : String) : Except String String :=
  (build_command_packet command).map env

/-- C9: for every command string, `_build_command_packet` raises `TypeError`
instead of returning a packet — the transaction id is taken from the
`async` method without `await`, so the bit-shift is applied to a coroutine
object — and consequently `send_command` never successfully sends any
command. -/
theorem c9_build_packet_type_error :
    (∀ command, build_command_packet command = .error "TypeError") ∧
    (∀ env command, send_command env command = .error "TypeError") :=
  ⟨fun _ => rfl, fun _ _ => rfl⟩

end Easun
